import Mathlib

/-!
Shallow embedding of the task-management backend (FastAPI application under
`phase-2/backend/app`): the task CRUD endpoints (`api/v1/tasks.py`), the
registration and login endpoints (`api/v1/auth.py`), the JWT helpers
(`auth/jwt.py`) and the identity resolver (`auth/dependencies.py`).

The relational store is modelled as a list of rows; `datetime.now(UTC)` is an
explicit `now : Nat` argument (seconds); SQLModel `select ... where` becomes
`List.find?` / `List.filter` with the same predicates, in the same order as the
source `where` clauses.  External collaborators (bcrypt via passlib, the JOSE
signing primitives, FastAPI's bearer-header extraction) are abstracted as
function parameters, exactly at the call boundary the source uses them.
-/

namespace Backend

/-- Task status enum from `app/models/task.py` (`TaskStatus`): three string
values `pending`, `in_progress`, `completed`. -/
inductive TaskStatus where
  | pending
  | in_progress
  | completed
deriving Repr, DecidableEq

/-- Task row from `app/models/task.py` (`Task`): id (primary key), title,
optional description, status, owning `user_id`, and the two timestamps. -/
structure Task where
  id : Nat
  title : String
  description : Option String
  status : TaskStatus
  user_id : Nat
  created_at : Nat
  updated_at : Nat
deriving Repr, DecidableEq

/-- HTTP error outcome: the pair a raised `HTTPException` exposes,
status code and detail string. -/
structure HTTPError where
  status_code : Nat
  detail : String
deriving Repr, DecidableEq

/-- The "not found" outcome raised by `get_task`, `update_task` and
`delete_task` in `app/api/v1/tasks.py`: `HTTPException(404, "Task not found")`. -/
def notFoundError : HTTPError := ⟨404, "Task not found"⟩

/-- The uniform unauthorized outcome raised by `get_current_user_id` in
`app/auth/dependencies.py`: `HTTPException(401, "Unauthorized")`. -/
def unauthorizedError : HTTPError := ⟨401, "Unauthorized"⟩

/-- The uniform login-failure outcome raised by `login` in
`app/api/v1/auth.py`: `HTTPException(401, "Invalid credentials")`. -/
def invalidCredentialsError : HTTPError := ⟨401, "Invalid credentials"⟩

/-- The duplicate-registration outcome raised by `register` in
`app/api/v1/auth.py`: `HTTPException(400, "Email already registered")`. -/
def duplicateEmailError : HTTPError := ⟨400, "Email already registered"⟩

/-- Request schema `TaskCreateRequest` from `app/schemas/task.py`: required
title, optional description, status with Pydantic default `PENDING`. -/
structure TaskCreateRequest where
  title : String
  description : Option String
  status : TaskStatus
deriving Repr, DecidableEq

/-- A `TaskCreateRequest` in which the status field was not supplied by the
caller: Pydantic fills the declared default `TaskStatus.PENDING`
(`status: TaskStatus = Field(default=TaskStatus.PENDING)`). -/
def TaskCreateRequest.withoutStatus (title : String) (description : Option String) :
    TaskCreateRequest :=
  ⟨title, description, TaskStatus.pending⟩

/-- Request schema `TaskUpdateRequest` from `app/schemas/task.py`: all fields
optional (`None` when absent from the JSON body or supplied as JSON null). -/
structure TaskUpdateRequest where
  title : Option String
  description : Option String
  status : Option TaskStatus
deriving Repr, DecidableEq

/-- Server-side id assignment by the store's autoincrement primary key:
one more than the largest id in the table. -/
def nextTaskId (store : List Task) : Nat :=
  (store.map Task.id).foldr max 0 + 1

/-- The ownership-scoped single-row lookup shared by `get_task`, `update_task`
and `delete_task`:
`select(Task).where(Task.id == task_id, Task.user_id == user_id)` then
`.first()`. -/
def find_owned_task (store : List Task) (user_id task_id : Nat) : Option Task :=
  store.find? (fun t => t.id == task_id && t.user_id == user_id)

/-- `create_task` from `app/api/v1/tasks.py`: builds the row with the fields of
the request, `user_id` taken from the resolved JWT identity, both timestamps
set to now, id assigned by the store; inserts it and returns it. -/
def create_task (store : List Task) (request : TaskCreateRequest)
    (user_id : Nat) (now : Nat) : List Task × Task :=
  let task : Task :=
    { id := nextTaskId store
      title := request.title
      description := request.description
      status := request.status
      user_id := user_id
      created_at := now
      updated_at := now }
  (store ++ [task], task)

/-- `list_tasks` from `app/api/v1/tasks.py`:
`select(Task).where(Task.user_id == user_id).order_by(Task.created_at.desc())`. -/
def list_tasks (store : List Task) (user_id : Nat) : List Task :=
  (store.filter (fun t => t.user_id == user_id)).mergeSort
    (fun a b => b.created_at ≤ a.created_at)

/-- `get_task` from `app/api/v1/tasks.py`: ownership-scoped lookup; 404 with
"Task not found" when the row is absent or owned by another user. -/
def get_task (store : List Task) (user_id task_id : Nat) :
    Except HTTPError Task :=
  match find_owned_task store user_id task_id with
  | none => .error notFoundError
  | some task => .ok task

/-- The field mutation block of `update_task`: each of title, description and
status is assigned only when the request carries it (`is not None`), then
`updated_at` is always refreshed. -/
def applyTaskUpdate (task : Task) (request : TaskUpdateRequest) (now : Nat) :
    Task :=
  let task := match request.title with
    | some t => { task with title := t }
    | none => task
  let task := match request.description with
    | some d => { task with description := d }
    | none => task
  let task := match request.status with
    | some s => { task with status := s }
    | none => task
  { task with updated_at := now }

/-- `update_task` from `app/api/v1/tasks.py`: ownership-scoped lookup, 404 on
absence or foreign ownership, otherwise partial field update, refreshed
`updated_at`, and commit of the mutated row (written back under its primary
key). Returns the new store and the returned row. -/
def update_task (store : List Task) (user_id task_id : Nat)
    (request : TaskUpdateRequest) (now : Nat) :
    Except HTTPError (List Task × Task) :=
  match find_owned_task store user_id task_id with
  | none => .error notFoundError
  | some task =>
    let task' := applyTaskUpdate task request now
    .ok (store.map (fun t => if t.id == task.id then task' else t), task')

/-- `delete_task` from `app/api/v1/tasks.py`: ownership-scoped lookup, 404 on
absence or foreign ownership, otherwise the fetched row is deleted from the
store (removed under its primary key). -/
def delete_task (store : List Task) (user_id task_id : Nat) :
    Except HTTPError (List Task) :=
  match find_owned_task store user_id task_id with
  | none => .error notFoundError
  | some task => .ok (store.filter (fun t => !(t.id == task.id)))

/-- Primary-key integrity of the tasks table: no two rows share an id. -/
def uniqueIds (store : List Task) : Prop :=
  (store.map Task.id).Nodup

instance (store : List Task) : Decidable (uniqueIds store) := by
  unfold uniqueIds
  infer_instance

/-- User row from `app/models/user.py` (`User`): id (primary key), email
(stored lowercase), bcrypt password hash, timestamps. -/
structure User where
  id : Nat
  email : String
  hashed_password : String
  created_at : Nat
  updated_at : Nat
deriving Repr, DecidableEq

/-- Python `str.lower()`: character-wise lowercasing. -/
def pyLower (s : String) : String :=
  ⟨s.data.map Char.toLower⟩

/-- Python `str.strip()`: remove leading and trailing whitespace. -/
def pyStrip (s : String) : String :=
  ⟨((s.data.dropWhile Char.isWhitespace).reverse.dropWhile
      Char.isWhitespace).reverse⟩

/-- Email normalization applied both by the `User` model validator
(`normalize_email`: `v.lower().strip()`) and inline in the `register` and
`login` endpoints (`request.email.lower().strip()`). -/
def normalize_email (email : String) : String :=
  pyStrip (pyLower email)

/-- Registration success payload `UserResponse` from `app/schemas/auth.py`:
id, email and creation timestamp, never the password material. -/
structure UserResponse where
  id : Nat
  email : String
  created_at : Nat
deriving Repr, DecidableEq

/-- Server-side id assignment for the users table, as for tasks. -/
def nextUserId (users : List User) : Nat :=
  (users.map User.id).foldr max 0 + 1

/-- `register` from `app/api/v1/auth.py`: normalize the email, fail with 400
"Email already registered" when a user with that email exists, otherwise hash
the password (bcrypt via passlib, abstracted as `hash_pw`), insert the new
user and return id, email and created_at. On failure no row is written. -/
def register (hash_pw : String → String) (users : List User)
    (request_email request_password : String) (now : Nat) :
    Except HTTPError (List User × UserResponse) :=
  let email := normalize_email request_email
  match users.find? (fun u => u.email == email) with
  | some _ => .error duplicateEmailError
  | none =>
    let user : User :=
      { id := nextUserId users
        email := email
        hashed_password := hash_pw request_password
        created_at := now
        updated_at := now }
    .ok (users ++ [user], ⟨user.id, user.email, user.created_at⟩)

/-- JWT payload as built by `create_access_token` and as returned (a claims
dict) by `verify_token` in `app/auth/jwt.py`; `sub` and `email` are optional
because a decoded foreign token may lack them. Times are UNIX seconds. -/
structure TokenPayload where
  sub : Option String
  email : Option String
  iat : Nat
  exp : Nat
deriving Repr, DecidableEq

/-- `create_access_token` from `app/auth/jwt.py`: claims sub = stringified
user id, email, iat = now, exp = now + JWT_EXPIRY_HOURS hours. The JOSE
signing step produces an encoding of exactly this payload; the embedding keeps
the payload itself. `expiryHours` is `settings.JWT_EXPIRY_HOURS`
(default 24 in `app/config.py`). -/
def create_access_token (expiryHours : Nat) (user_id : Nat) (email : String)
    (now : Nat) : TokenPayload :=
  { sub := some (toString user_id)
    email := some email
    iat := now
    exp := now + expiryHours * 3600 }

/-- Login success payload `TokenResponse` from `app/schemas/auth.py`. -/
structure TokenResponse where
  access_token : TokenPayload
  token_type : String
  expires_in : Nat
deriving Repr, DecidableEq

/-- `login` from `app/api/v1/auth.py`: normalize the email, look the user up,
fail with 401 "Invalid credentials" when absent; verify the password (passlib,
abstracted as `verify_pw`), fail with the same 401 "Invalid credentials" on
mismatch; on success issue a token and return it with token_type "Bearer"
and expires_in = JWT_EXPIRY_HOURS * 3600. -/
def login (verify_pw : String → String → Bool) (expiryHours : Nat)
    (users : List User) (request_email request_password : String) (now : Nat) :
    Except HTTPError TokenResponse :=
  let email := normalize_email request_email
  match users.find? (fun u => u.email == email) with
  | none => .error invalidCredentialsError
  | some user =>
    if verify_pw request_password user.hashed_password then
      .ok { access_token := create_access_token expiryHours user.id user.email now
            token_type := "Bearer"
            expires_in := expiryHours * 3600 }
    else
      .error invalidCredentialsError

/-- Opaque verification failure of the JOSE layer (`JWTError`): invalid
signature, expired token or malformed token, undifferentiated. -/
structure JWTError where
  msg : String
deriving Repr, DecidableEq

/-- `get_current_user_id` from `app/auth/dependencies.py`. `verify` is
`verify_token` (the JOSE decode, abstracted: it either errors or yields the
claims dict); `toInt` is Python's `int(...)` conversion on strings, abstracted
as a partial function. The bearer-token extraction itself is performed by the
framework dependency `HTTPBearer`; per the spec the resolver is given the
credential or its absence and fails when it is absent, so `credentials` is an
`Option` and the absent case is modelled from the spec: "extract credential
from the standard bearer-authorization carrier; if absent, fail", collapsing
to the same unauthorized outcome. The handler checks `if not user_id_str`,
which in Python also fails on an empty-string subject claim. -/
def get_current_user_id (toInt : String → Option Int)
    (verify : String → Except JWTError TokenPayload)
    (credentials : Option String) : Except HTTPError Int :=
  match credentials with
  | none => .error unauthorizedError
  | some token =>
    match verify token with
    | .error _ => .error unauthorizedError
    | .ok payload =>
      match payload.sub with
      | none => .error unauthorizedError
      | some s =>
        if s = "" then .error unauthorizedError
        else
          match toInt s with
          | none => .error unauthorizedError
          | some user_id => .ok user_id

/-! Helper lemmas shared by the claim theorems. -/

theorem find_owned_task_some (store : List Task) (user_id task_id : Nat)
    (task : Task) (h : find_owned_task store user_id task_id = some task) :
    task ∈ store ∧ task.id = task_id ∧ task.user_id = user_id := by
  unfold find_owned_task at h
  have hmem := List.mem_of_find?_eq_some h
  have hp := List.find?_some h
  simp only [Bool.and_eq_true, beq_iff_eq] at hp
  exact ⟨hmem, hp.1, hp.2⟩

theorem find_owned_task_none (store : List Task) (user_id task_id : Nat)
    (h : ∀ t ∈ store, t.id = task_id → t.user_id ≠ user_id) :
    find_owned_task store user_id task_id = none := by
  unfold find_owned_task
  rw [List.find?_eq_none]
  intro t ht
  simp only [Bool.and_eq_true, beq_iff_eq, not_and]
  intro hid
  exact h t ht hid

theorem applyTaskUpdate_fields (task : Task) (request : TaskUpdateRequest)
    (now : Nat) :
    (applyTaskUpdate task request now).title = request.title.getD task.title ∧
    (applyTaskUpdate task request now).description =
      request.description.or task.description ∧
    (applyTaskUpdate task request now).status =
      request.status.getD task.status ∧
    (applyTaskUpdate task request now).user_id = task.user_id ∧
    (applyTaskUpdate task request now).created_at = task.created_at ∧
    (applyTaskUpdate task request now).updated_at = now := by
  obtain ⟨t, d, s⟩ := request
  cases t <;> cases d <;> cases s <;> simp [applyTaskUpdate]

/-- C2: for every caller and record id, `get_task`, `update_task` and
`delete_task` return the single constant outcome `notFoundError`
(404, "Task not found") in both the case where no record with the id exists
and the case where every record with that id is owned by another user; the
two cases are therefore externally indistinguishable. -/
theorem not_found_indistinguishable
    (store : List Task) (user_id task_id : Nat)
    (request : TaskUpdateRequest) (now : Nat)
    (h : ∀ t ∈ store, t.id = task_id → t.user_id ≠ user_id) :
    get_task store user_id task_id = .error notFoundError ∧
    update_task store user_id task_id request now = .error notFoundError ∧
    delete_task store user_id task_id = .error notFoundError := by
  have hfind := find_owned_task_none store user_id task_id h
  exact ⟨by simp [get_task, hfind], by simp [update_task, hfind],
    by simp [delete_task, hfind]⟩

/-- Witness for C2: a store holding the record id 1 owned by user 2; caller
user 1 gets the identical not-found outcome from all three operations. -/
theorem not_found_indistinguishable_witness :
    get_task [⟨1, "t", none, TaskStatus.pending, 2, 0, 0⟩] 1 1 =
      .error notFoundError ∧
    update_task [⟨1, "t", none, TaskStatus.pending, 2, 0, 0⟩] 1 1
      ⟨none, none, none⟩ 5 = .error notFoundError ∧
    delete_task [⟨1, "t", none, TaskStatus.pending, 2, 0, 0⟩] 1 1 =
      .error notFoundError :=
  not_found_indistinguishable _ 1 1 ⟨none, none, none⟩ 5 (by decide)

/-- C4: every failing login returns the single constant outcome
`invalidCredentialsError` (401, "Invalid credentials"), both when no user with
the normalized email exists and when the user exists but the submitted
password does not verify against the stored hash. -/
theorem login_failure_uniform
    (verify_pw : String → String → Bool) (expiryHours : Nat)
    (users : List User) (request_email request_password : String) (now : Nat) :
    (users.find? (fun u => u.email == normalize_email request_email) = none →
      login verify_pw expiryHours users request_email request_password now =
        .error invalidCredentialsError) ∧
    (∀ user,
      users.find? (fun u => u.email == normalize_email request_email) =
        some user →
      verify_pw request_password user.hashed_password = false →
      login verify_pw expiryHours users request_email request_password now =
        .error invalidCredentialsError) := by
  constructor
  · intro h
    simp [login, h]
  · intro user h hv
    simp [login, h, hv]

/-- Witness for C4: one registered user; an unregistered email and a wrong
password produce the identical failure value. -/
theorem login_failure_uniform_witness :
    login (fun a b => a == b) 24 [⟨1, "user@example.com", "pw", 0, 0⟩]
      "nobody@example.com" "pw" 0 = .error invalidCredentialsError ∧
    login (fun a b => a == b) 24 [⟨1, "user@example.com", "pw", 0, 0⟩]
      "user@example.com" "wrong" 0 = .error invalidCredentialsError :=
  ⟨(login_failure_uniform _ 24 _ "nobody@example.com" "pw" 0).1 (by decide),
   (login_failure_uniform _ 24 _ "user@example.com" "wrong" 0).2
     ⟨1, "user@example.com", "pw", 0, 0⟩ (by decide) (by decide)⟩

/-- C8: every successful create assigns the new record's owner from the
resolved caller identity (for every request body, so never from the body),
a server-assigned id, both timestamps equal to now, appends exactly that
record to the store, and a request whose status field was not supplied
yields status `pending`. -/
theorem create_task_owner_and_defaults
    (store : List Task) (request : TaskCreateRequest) (user_id now : Nat) :
    (create_task store request user_id now).2.user_id = user_id ∧
    (create_task store request user_id now).2.id = nextTaskId store ∧
    (create_task store request user_id now).2.created_at = now ∧
    (create_task store request user_id now).2.updated_at = now ∧
    (create_task store request user_id now).1 =
      store ++ [(create_task store request user_id now).2] ∧
    (∀ title description,
      (create_task store (TaskCreateRequest.withoutStatus title description)
        user_id now).2.status = TaskStatus.pending) :=
  ⟨rfl, rfl, rfl, rfl, rfl, fun _ _ => rfl⟩

/-- C10: a field supplied as JSON null reaches the handler as `None`, exactly
as an absent field does (`TaskUpdateRequest` declares every field
`Optional[...] = None`), and the handler only assigns fields that are not
`None`: hence a description once set is never cleared back to null by an
update, and an update carrying no field (all null or absent) leaves title,
description and status unchanged while refreshing `updated_at` and
reporting success. -/
theorem update_null_means_absent
    (store : List Task) (user_id task_id now : Nat) (task : Task)
    (hfind : find_owned_task store user_id task_id = some task) :
    (∀ (t : Task) (request : TaskUpdateRequest) (n : Nat),
      t.description.isSome → ((applyTaskUpdate t request n).description).isSome) ∧
    (∀ (t : Task) (n : Nat),
      applyTaskUpdate t ⟨none, none, none⟩ n = { t with updated_at := n }) ∧
    update_task store user_id task_id ⟨none, none, none⟩ now =
      .ok (store.map (fun t => if t.id == task.id then
             { task with updated_at := now } else t),
           { task with updated_at := now }) := by
  refine ⟨?_, ?_, ?_⟩
  · intro t request n hd
    have h := (applyTaskUpdate_fields t request n).2.1
    rw [h]
    cases request.description <;> simp_all
  · intro t n
    rfl
  · unfold update_task
    rw [hfind]
    rfl

/-- Witness for C10: an all-null update on a store with one owned record
succeeds and changes nothing but the updated timestamp. -/
theorem update_null_means_absent_witness :
    update_task [⟨1, "t", some "d", TaskStatus.pending, 7, 3, 3⟩] 7 1
      ⟨none, none, none⟩ 9 =
      .ok ([⟨1, "t", some "d", TaskStatus.pending, 7, 3, 9⟩],
           ⟨1, "t", some "d", TaskStatus.pending, 7, 3, 9⟩) :=
  (update_null_means_absent [⟨1, "t", some "d", TaskStatus.pending, 7, 3, 3⟩]
    7 1 9 ⟨1, "t", some "d", TaskStatus.pending, 7, 3, 3⟩ (by decide)).2.2

theorem foldl_applyTaskUpdate_invariant (task : Task)
    (updates : List (TaskUpdateRequest × Nat)) :
    (updates.foldl (fun t u => applyTaskUpdate t u.1 u.2) task).user_id =
      task.user_id ∧
    (updates.foldl (fun t u => applyTaskUpdate t u.1 u.2) task).created_at =
      task.created_at := by
  induction updates generalizing task with
  | nil => exact ⟨rfl, rfl⟩
  | cons u rest ih =>
    simp only [List.foldl_cons]
    have h := ih (applyTaskUpdate task u.1 u.2)
    have hf := applyTaskUpdate_fields task u.1 u.2
    exact ⟨h.1.trans hf.2.2.2.1, h.2.trans hf.2.2.2.2.1⟩

/-- C6: a successful update gives the supplied fields their new values and
keeps every absent field at its previous value; the returned record keeps
the looked-up record's owner and created timestamp and has `updated_at = now`
(even when no field is supplied, by the first three conjuncts with all fields
`none`); and owner and created timestamp are invariant under any sequence of
updates. -/
theorem update_partial_frame
    (store store' : List Task) (user_id task_id : Nat)
    (request : TaskUpdateRequest) (now : Nat) (task task' : Task)
    (hfind : find_owned_task store user_id task_id = some task)
    (h : update_task store user_id task_id request now = .ok (store', task')) :
    task'.title = request.title.getD task.title ∧
    task'.description = request.description.or task.description ∧
    task'.status = request.status.getD task.status ∧
    task'.user_id = task.user_id ∧
    task'.created_at = task.created_at ∧
    task'.updated_at = now ∧
    (∀ updates : List (TaskUpdateRequest × Nat),
      (updates.foldl (fun t u => applyTaskUpdate t u.1 u.2) task).user_id =
        task.user_id ∧
      (updates.foldl (fun t u => applyTaskUpdate t u.1 u.2) task).created_at =
        task.created_at) := by
  have htask' : task' = applyTaskUpdate task request now := by
    unfold update_task at h
    rw [hfind] at h
    simp only [Except.ok.injEq, Prod.mk.injEq] at h
    exact h.2.symm
  subst htask'
  have hf := applyTaskUpdate_fields task request now
  exact ⟨hf.1, hf.2.1, hf.2.2.1, hf.2.2.2.1, hf.2.2.2.2.1, hf.2.2.2.2.2,
    foldl_applyTaskUpdate_invariant task⟩

/-- Witness for C6: updating only the status of an owned record keeps title
and description, keeps owner and created timestamp, refreshes `updated_at`. -/
theorem update_partial_frame_witness :
    (⟨1, "t", some "d", TaskStatus.in_progress, 7, 3, 9⟩ : Task).title =
      (none : Option String).getD "t" ∧
    (⟨1, "t", some "d", TaskStatus.in_progress, 7, 3, 9⟩ : Task).description =
      (none : Option String).or (some "d") ∧
    (⟨1, "t", some "d", TaskStatus.in_progress, 7, 3, 9⟩ : Task).status =
      (some TaskStatus.in_progress).getD TaskStatus.pending ∧
    (⟨1, "t", some "d", TaskStatus.in_progress, 7, 3, 9⟩ : Task).user_id = 7 ∧
    (⟨1, "t", some "d", TaskStatus.in_progress, 7, 3, 9⟩ : Task).created_at = 3 ∧
    (⟨1, "t", some "d", TaskStatus.in_progress, 7, 3, 9⟩ : Task).updated_at = 9 := by
  have h := update_partial_frame
    [⟨1, "t", some "d", TaskStatus.pending, 7, 3, 3⟩]
    [⟨1, "t", some "d", TaskStatus.in_progress, 7, 3, 9⟩] 7 1
    ⟨none, none, some TaskStatus.in_progress⟩ 9
    ⟨1, "t", some "d", TaskStatus.pending, 7, 3, 3⟩
    ⟨1, "t", some "d", TaskStatus.in_progress, 7, 3, 9⟩
    (by decide) (by rfl)
  exact ⟨h.1, h.2.1, h.2.2.1, h.2.2.2.1, h.2.2.2.2.1, h.2.2.2.2.2.1⟩

/-- C5: two successive registrations whose emails agree after normalization:
when no user with that normalized email exists yet, the first succeeds and
appends exactly one user with the normalized email, and the second fails with
the duplicate outcome (400, "Email already registered"), returning no store —
the first user's stored record is untouched. -/
theorem register_duplicate_email
    (hash_pw : String → String) (users : List User) (e1 e2 p1 p2 : String)
    (now now' : Nat)
    (hnorm : normalize_email e1 = normalize_email e2)
    (hfresh : users.find? (fun u => u.email == normalize_email e1) = none) :
    register hash_pw users e1 p1 now =
      .ok (users ++ [⟨nextUserId users, normalize_email e1, hash_pw p1, now, now⟩],
           ⟨nextUserId users, normalize_email e1, now⟩) ∧
    register hash_pw
      (users ++ [⟨nextUserId users, normalize_email e1, hash_pw p1, now, now⟩])
      e2 p2 now' = .error duplicateEmailError := by
  constructor
  · simp [register, hfresh]
  · have hfound :
        (users ++ [(⟨nextUserId users, normalize_email e1, hash_pw p1, now, now⟩ : User)]).find?
          (fun u => u.email == normalize_email e2) =
        some ⟨nextUserId users, normalize_email e1, hash_pw p1, now, now⟩ := by
      rw [← hnorm, List.find?_append, hfresh]
      simp
    simp [register, hfound]

/-- Witness for C5: registering `User@Example.COM` then `user@example.com`
against an empty user table: the first succeeds, the second fails. -/
theorem register_duplicate_email_witness :
    register (fun p => p) [] "User@Example.COM" "pw1" 10 =
      .ok ([⟨1, "user@example.com", "pw1", 10, 10⟩],
           ⟨1, "user@example.com", 10⟩) ∧
    register (fun p => p) [⟨1, "user@example.com", "pw1", 10, 10⟩]
      "user@example.com" "pw2" 11 = .error duplicateEmailError := by
  have h := register_duplicate_email (fun p => p) []
    "User@Example.COM" "user@example.com" "pw1" "pw2" 10 11
    (by decide) (by decide)
  exact ⟨h.1, h.2⟩

theorem mem_list_tasks (store : List Task) (user_id : Nat) (t : Task) :
    t ∈ list_tasks store user_id ↔ t ∈ store ∧ t.user_id = user_id := by
  unfold list_tasks
  rw [List.mem_mergeSort, List.mem_filter]
  simp

/-- C7: when the caller owns the record, the first delete succeeds and removes
it: afterwards the ownership-scoped lookup, get, every update, and a second
delete all yield the not-found outcome, and the record's id no longer occurs
in the caller's list. -/
theorem delete_permanent
    (store : List Task) (user_id task_id : Nat) (task : Task)
    (hfind : find_owned_task store user_id task_id = some task) :
    delete_task store user_id task_id =
      .ok (store.filter (fun t => !(t.id == task.id))) ∧
    find_owned_task (store.filter (fun t => !(t.id == task.id)))
      user_id task_id = none ∧
    get_task (store.filter (fun t => !(t.id == task.id))) user_id task_id =
      .error notFoundError ∧
    (∀ request now,
      update_task (store.filter (fun t => !(t.id == task.id)))
        user_id task_id request now = .error notFoundError) ∧
    delete_task (store.filter (fun t => !(t.id == task.id)))
      user_id task_id = .error notFoundError ∧
    (∀ t ∈ list_tasks (store.filter (fun t => !(t.id == task.id))) user_id,
      t.id ≠ task_id) := by
  obtain ⟨hmem, hid, huid⟩ :=
    find_owned_task_some store user_id task_id task hfind
  have hdel : delete_task store user_id task_id =
      .ok (store.filter (fun t => !(t.id == task.id))) := by
    unfold delete_task
    rw [hfind]
  have hgone : ∀ t ∈ store.filter (fun t => !(t.id == task.id)),
      t.id ≠ task_id := by
    intro t ht
    rw [List.mem_filter] at ht
    have h2 := ht.2
    simp only [Bool.not_eq_true', beq_eq_false_iff_ne] at h2
    intro hc
    exact h2 (hc.trans hid.symm)
  have hnone : find_owned_task (store.filter (fun t => !(t.id == task.id)))
      user_id task_id = none := by
    apply find_owned_task_none
    intro t ht hti
    exact absurd hti (hgone t ht)
  refine ⟨hdel, hnone, by simp [get_task, hnone], ?_,
    by simp [delete_task, hnone], ?_⟩
  · intro request now
    simp [update_task, hnone]
  · intro t ht
    exact hgone t ((mem_list_tasks _ user_id t).1 ht).1

/-- Witness for C7: deleting the only record of user 7 succeeds, and every
subsequent lookup of that id yields the not-found outcome. -/
theorem delete_permanent_witness :
    delete_task [⟨1, "t", none, TaskStatus.pending, 7, 0, 0⟩] 7 1 =
      .ok [] ∧
    find_owned_task ([] : List Task) 7 1 = none ∧
    get_task ([] : List Task) 7 1 = .error notFoundError := by
  have h := delete_permanent [⟨1, "t", none, TaskStatus.pending, 7, 0, 0⟩]
    7 1 ⟨1, "t", none, TaskStatus.pending, 7, 0, 0⟩ (by decide)
  exact ⟨h.1, h.2.1, h.2.2.1⟩

/-- C1: owner isolation across all five operations: create assigns the
caller as owner and adds no foreign record; list returns only the caller's
records; get returns only a record owned by the caller; a successful update
returns a record owned by the caller, adds only records of the caller, and
mutates only records of the caller; delete removes only records of the
caller. The store is assumed to satisfy primary-key uniqueness of ids. -/
theorem ownership_isolation
    (store : List Task) (user_id task_id now : Nat)
    (creq : TaskCreateRequest) (ureq : TaskUpdateRequest)
    (huniq : uniqueIds store) :
    (create_task store creq user_id now).2.user_id = user_id ∧
    (∀ t ∈ (create_task store creq user_id now).1,
      t ∈ store ∨ t.user_id = user_id) ∧
    (∀ t ∈ list_tasks store user_id, t.user_id = user_id) ∧
    (∀ task, get_task store user_id task_id = .ok task →
      task.user_id = user_id) ∧
    (∀ store' task',
      update_task store user_id task_id ureq now = .ok (store', task') →
      task'.user_id = user_id ∧
      (∀ t ∈ store', t ∈ store ∨ t.user_id = user_id) ∧
      (∀ t ∈ store, t ∉ store' → t.user_id = user_id)) ∧
    (∀ store', delete_task store user_id task_id = .ok store' →
      (∀ t ∈ store', t ∈ store) ∧
      (∀ t ∈ store, t ∉ store' → t.user_id = user_id)) := by
  have huniq' : (store.map Task.id).Nodup := huniq
  refine ⟨rfl, ?_, ?_, ?_, ?_, ?_⟩
  · intro t ht
    simp only [create_task, List.mem_append, List.mem_singleton] at ht
    rcases ht with h | h
    · exact .inl h
    · subst h
      exact .inr rfl
  · intro t ht
    exact ((mem_list_tasks store user_id t).1 ht).2
  · intro task h
    unfold get_task at h
    split at h
    · exact absurd h (by simp)
    next t0 hf =>
      simp only [Except.ok.injEq] at h
      subst h
      exact (find_owned_task_some store user_id task_id t0 hf).2.2
  · intro store' task' h
    unfold update_task at h
    split at h
    · exact absurd h (by simp)
    next t0 hf =>
      obtain ⟨hmem0, hid0, huid0⟩ :=
        find_owned_task_some store user_id task_id t0 hf
      simp only [Except.ok.injEq, Prod.mk.injEq] at h
      obtain ⟨hs, ht'⟩ := h
      have htask' : task'.user_id = user_id := by
        rw [← ht']
        exact ((applyTaskUpdate_fields t0 ureq now).2.2.2.1).trans huid0
      refine ⟨htask', ?_, ?_⟩
      · intro t ht
        rw [← hs] at ht
        rw [List.mem_map] at ht
        obtain ⟨x, hx, hfx⟩ := ht
        by_cases hxid : (x.id == t0.id) = true
        · right
          simp only [hxid, if_true] at hfx
          rw [← hfx, ht']
          exact htask'
        · left
          simp only [hxid, if_false] at hfx
          rw [← hfx]
          exact hx
      · intro t ht hnot
        by_cases hid' : t.id = t0.id
        · have : t = t0 := List.inj_on_of_nodup_map huniq' ht hmem0 hid'
          rw [this]
          exact huid0
        · exfalso
          apply hnot
          rw [← hs]
          have hmemmap := List.mem_map_of_mem
            (fun t => if t.id == t0.id then applyTaskUpdate t0 ureq now else t)
            ht
          simpa [hid'] using hmemmap
  · intro store' h
    unfold delete_task at h
    split at h
    · exact absurd h (by simp)
    next t0 hf =>
      obtain ⟨hmem0, hid0, huid0⟩ :=
        find_owned_task_some store user_id task_id t0 hf
      simp only [Except.ok.injEq] at h
      subst h
      constructor
      · intro t ht
        exact (List.mem_filter.1 ht).1
      · intro t ht hnot
        by_cases hid' : t.id = t0.id
        · have : t = t0 := List.inj_on_of_nodup_map huniq' ht hmem0 hid'
          rw [this]
          exact huid0
        · exfalso
          apply hnot
          rw [List.mem_filter]
          refine ⟨ht, ?_⟩
          simp [hid']

/-- Witness for C1: create against a one-record, unique-id store assigns the
caller as owner. -/
theorem ownership_isolation_witness :
    (create_task [⟨1, "a", none, TaskStatus.pending, 7, 0, 0⟩]
      ⟨"t", none, TaskStatus.pending⟩ 7 5).2.user_id = 7 :=
  (ownership_isolation [⟨1, "a", none, TaskStatus.pending, 7, 0, 0⟩]
    7 1 5 ⟨"t", none, TaskStatus.pending⟩ ⟨none, none, none⟩ (by decide)).1

/-- C9: an issued token carries sub = stringified user id, iat = now and
exp = iat + configured hours * 3600 seconds (86400 for the default 24); a
successful login returns token_type "Bearer", expires_in = configured hours
* 3600, and the token issued for the found user at the current time. -/
theorem token_claims_and_login_response
    (expiryHours user_id now : Nat) (email : String)
    (verify_pw : String → String → Bool) (users : List User)
    (request_email request_password : String) (resp : TokenResponse)
    (h : login verify_pw expiryHours users request_email request_password now =
      .ok resp) :
    (create_access_token expiryHours user_id email now).sub =
      some (toString user_id) ∧
    (create_access_token expiryHours user_id email now).iat = now ∧
    (create_access_token expiryHours user_id email now).exp =
      (create_access_token expiryHours user_id email now).iat +
        expiryHours * 3600 ∧
    (create_access_token 24 user_id email now).exp = now + 86400 ∧
    resp.token_type = "Bearer" ∧
    resp.expires_in = expiryHours * 3600 ∧
    (∃ user,
      users.find? (fun u => u.email == normalize_email request_email) =
        some user ∧
      resp.access_token =
        create_access_token expiryHours user.id user.email now) := by
  simp only [login] at h
  split at h
  · exact absurd h (by simp)
  next user hfind =>
    split at h
    · simp only [Except.ok.injEq] at h
      subst h
      exact ⟨rfl, rfl, rfl, by simp [create_access_token], rfl, rfl,
        ⟨user, hfind, rfl⟩⟩
    · exact absurd h (by simp)

/-- Witness for C9: a concrete successful login returns token_type "Bearer"
and expires_in 86400 for the default 24-hour validity. -/
theorem token_claims_and_login_response_witness :
    (create_access_token 24 1 "user@example.com" 0).sub = some "1" ∧
    (⟨⟨some "1", some "user@example.com", 0, 86400⟩, "Bearer", 86400⟩ :
      TokenResponse).token_type = "Bearer" ∧
    (⟨⟨some "1", some "user@example.com", 0, 86400⟩, "Bearer", 86400⟩ :
      TokenResponse).expires_in = 24 * 3600 := by
  have h := token_claims_and_login_response 24 1 0 "user@example.com"
    (fun a b => a == b) [⟨1, "user@example.com", "pw", 0, 0⟩]
    "user@example.com" "pw"
    ⟨⟨some "1", some "user@example.com", 0, 86400⟩, "Bearer", 86400⟩
    (by rfl)
  exact ⟨h.1, h.2.2.2.2.1, h.2.2.2.2.2.1⟩

/-- C3: the identity resolver fails exactly when the bearer credential is
absent, the token fails verification, or the subject claim is missing (or
empty, which Python's falsiness check also treats as missing) or not
parseable as an integer; every failure is the single constant outcome
`unauthorizedError` (401, "Unauthorized"); on success it returns the subject
claim parsed as an integer. -/
theorem identity_resolver_uniform
    (toInt : String → Option Int)
    (verify : String → Except JWTError TokenPayload)
    (credentials : Option String) :
    (∀ e, get_current_user_id toInt verify credentials = .error e →
      e = unauthorizedError) ∧
    (get_current_user_id toInt verify credentials = .error unauthorizedError ↔
      credentials = none ∨
      ∃ token, credentials = some token ∧
        ((∃ err, verify token = .error err) ∨
         ∃ payload, verify token = .ok payload ∧
           (payload.sub = none ∨ payload.sub = some "" ∨
            ∃ s, payload.sub = some s ∧ toInt s = none))) ∧
    (∀ user_id, get_current_user_id toInt verify credentials = .ok user_id →
      ∃ token payload s, credentials = some token ∧
        verify token = .ok payload ∧ payload.sub = some s ∧
        toInt s = some user_id) := by
  cases credentials with
  | none =>
    refine ⟨?_, ?_, ?_⟩
    · intro e he
      simp only [get_current_user_id, Except.error.injEq] at he
      exact he.symm
    · simp [get_current_user_id]
    · intro user_id h
      simp [get_current_user_id] at h
  | some token =>
    cases hv : verify token with
    | error err =>
      refine ⟨?_, ?_, ?_⟩
      · intro e he
        simp only [get_current_user_id, hv, Except.error.injEq] at he
        exact he.symm
      · constructor
        · intro _
          exact .inr ⟨token, rfl, .inl ⟨err, hv⟩⟩
        · intro _
          simp [get_current_user_id, hv]
      · intro user_id h
        simp [get_current_user_id, hv] at h
    | ok payload =>
      cases hs : payload.sub with
      | none =>
        refine ⟨?_, ?_, ?_⟩
        · intro e he
          simp only [get_current_user_id, hv, hs, Except.error.injEq] at he
          exact he.symm
        · constructor
          · intro _
            exact .inr ⟨token, rfl, .inr ⟨payload, hv, .inl hs⟩⟩
          · intro _
            simp [get_current_user_id, hv, hs]
        · intro user_id h
          simp [get_current_user_id, hv, hs] at h
      | some s =>
        by_cases hse : s = ""
        · subst hse
          refine ⟨?_, ?_, ?_⟩
          · intro e he
            simp [get_current_user_id, hv, hs] at he
            exact he.symm
          · constructor
            · intro _
              exact .inr ⟨token, rfl, .inr ⟨payload, hv, .inr (.inl hs)⟩⟩
            · intro _
              simp [get_current_user_id, hv, hs]
          · intro user_id h
            simp [get_current_user_id, hv, hs] at h
        · cases hti : toInt s with
          | none =>
            refine ⟨?_, ?_, ?_⟩
            · intro e he
              simp only [get_current_user_id, hv, hs, if_neg hse, hti,
                Except.error.injEq] at he
              exact he.symm
            · constructor
              · intro _
                exact .inr ⟨token, rfl,
                  .inr ⟨payload, hv, .inr (.inr ⟨s, hs, hti⟩)⟩⟩
              · intro _
                simp [get_current_user_id, hv, hs, hse, hti]
            · intro user_id h
              simp [get_current_user_id, hv, hs, hse, hti] at h
          | some uid =>
            refine ⟨?_, ?_, ?_⟩
            · intro e he
              simp [get_current_user_id, hv, hs, hse, hti] at he
            · constructor
              · intro hcontra
                simp [get_current_user_id, hv, hs, hse, hti] at hcontra
              · intro hr
                exfalso
                rcases hr with hnone | ⟨t, hteq, hcase⟩
                · exact Option.noConfusion hnone
                · have ht : t = token := (Option.some.inj hteq).symm
                  subst ht
                  rcases hcase with ⟨err, herr⟩ | ⟨p, hp, hsub⟩
                  · rw [hv] at herr
                    exact Except.noConfusion herr
                  · rw [hv] at hp
                    have hp' : payload = p := Except.ok.inj hp
                    subst hp'
                    rcases hsub with h1 | h1 | ⟨s', hs', hti'⟩
                    · rw [hs] at h1
                      exact Option.noConfusion h1
                    · rw [hs] at h1
                      exact hse (Option.some.inj h1)
                    · rw [hs] at hs'
                      rw [← Option.some.inj hs'] at hti'
                      rw [hti] at hti'
                      exact Option.noConfusion hti'
            · intro user_id h
              simp only [get_current_user_id, hv, hs, if_neg hse, hti,
                Except.ok.injEq] at h
              exact ⟨token, payload, s, rfl, hv, hs, by rw [h] at hti; exact hti⟩

/-- Witness for C3: a failing verification with a present credential yields
precisely the unauthorized outcome. -/
theorem identity_resolver_uniform_witness :
    get_current_user_id (fun s => s.toInt?)
      (fun _ => .error ⟨"bad signature"⟩) (some "tok") =
      .error unauthorizedError :=
  (identity_resolver_uniform (fun s => s.toInt?)
    (fun _ => .error ⟨"bad signature"⟩) (some "tok")).2.1.mpr
    (.inr ⟨"tok", rfl, .inl ⟨⟨"bad signature"⟩, rfl⟩⟩)

end Backend
